import Mathlib

/-!
Shallow embedding of the transaction-sync subsystem of the wumbo backend
(src/backend/app): the transaction reconciliation and single-page sync
orchestration of PlaidService (services/plaid_service.py), the Celery task
wrapper (tasks/plaid_tasks.py), the webhook verifiers
(core/webhook_verification.py) and the encryption service
(core/encryption.py).

Modelling conventions: database rows become Lean structures; the
transactions table, which PlaidService always queries by
plaid_transaction_id, becomes a map from that external id to the row
(manual rows have a NULL external id and never match those queries, so
they sit outside the map and are untouched by reconciliation); SQLAlchemy
session semantics are the standard ones (autoflush: writes made earlier in
the session are visible to later queries in the same session; on an
exception the task calls db.rollback(), so an aborted run leaves the
persisted state unchanged).  External collaborators that live outside
src/backend (the Plaid HTTP API, the cryptography library primitives, the
SHA-256 / HMAC digests of hashlib) are passed in as function parameters;
everything else is translated from the source.  Python date strings are
carried verbatim: datetime.strptime is a fixed deterministic conversion
applied to the provider string, so storing the string itself preserves all
equalities the claims speak about.  Monetary amounts are modelled as
integers: only their sign and absolute value matter to any claim.
-/

namespace Wumbo

/-- Plaid transaction payload (the txn_data dict consumed by
PlaidService._save_transaction and PlaidService._update_transaction). -/
structure TxnPayload where
  transaction_id : String
  amount : Int
  date : String
  authorized_date : Option String
  name : String
  merchant_name : Option String
  category : List String
  category_id : Option String
  payment_channel : Option String
  pending : Bool
  deriving DecidableEq, Repr

/-- Row of the transactions table (app/models/transaction.py) as far as the
reconciliation code reads or writes it. -/
structure TxnRecord where
  account_id : String
  household_id : String
  plaid_transaction_id : String
  amount : Int
  date : String
  authorized_date : Option String
  name : String
  merchant_name : Option String
  plaid_category : String
  plaid_category_id : Option String
  payment_channel : Option String
  pending : Bool
  is_manual : Bool
  deriving DecidableEq, Repr

/-- Row of the bank_accounts table (app/models/bank_account.py) as far as
the sync code reads or writes it.  plaid_access_token holds the ciphertext
as stored; the EncryptedString column type decrypts it when the row is
loaded. -/
structure BankAccount where
  id : String
  household_id : String
  plaid_access_token : String
  plaid_cursor : Option String
  is_active : Bool
  last_synced_at : Option Int
  sync_error : Option String
  deriving DecidableEq, Repr

/-- Transactions table keyed by plaid_transaction_id. -/
abbrev TxnStore := String → Option TxnRecord

/-- Python ", ".join(txn_data.get("category", [])). -/
def joinCategory (cs : List String) : String := String.intercalate ", " cs

/-- Transaction row built by PlaidService._save_transaction: note
amount = abs(txn_data["amount"]) (source comment: Plaid uses negative for
expenses), is_manual = False. -/
def newTxnRecord (account : BankAccount) (p : TxnPayload) : TxnRecord :=
  { account_id := account.id
    household_id := account.household_id
    plaid_transaction_id := p.transaction_id
    amount := |p.amount|
    date := p.date
    authorized_date := p.authorized_date
    name := p.name
    merchant_name := p.merchant_name
    plaid_category := joinCategory p.category
    plaid_category_id := p.category_id
    payment_channel := p.payment_channel
    pending := p.pending
    is_manual := false }

/-- Field assignments performed by PlaidService._update_transaction on an
existing row (all other columns are left as they are). -/
def updateTransactionFields (p : TxnPayload) (t : TxnRecord) : TxnRecord :=
  { t with
    amount := |p.amount|
    date := p.date
    name := p.name
    merchant_name := p.merchant_name
    pending := p.pending
    plaid_category := joinCategory p.category
    plaid_category_id := p.category_id
    payment_channel := p.payment_channel }

/-- PlaidService._update_transaction: query by plaid_transaction_id; if no
row matches, log and return (skip); otherwise update in place. -/
def updateTransaction (p : TxnPayload) (s : TxnStore) : TxnStore :=
  match s p.transaction_id with
  | none => s
  | some t => fun tid =>
      if tid = p.transaction_id then some (updateTransactionFields p t) else s tid

/-- PlaidService._save_transaction: query by plaid_transaction_id; if a row
already exists, delegate to _update_transaction; otherwise insert the new
row. -/
def saveTransaction (account : BankAccount) (p : TxnPayload) (s : TxnStore) : TxnStore :=
  match s p.transaction_id with
  | some _ => updateTransaction p s
  | none => fun tid =>
      if tid = p.transaction_id then some (newTxnRecord account p) else s tid

/-- PlaidService._remove_transaction: query by plaid_transaction_id; delete
the row if present, do nothing otherwise. -/
def removeTransaction (ptid : String) (s : TxnStore) : TxnStore :=
  match s ptid with
  | none => s
  | some _ => fun tid => if tid = ptid then none else s tid

/-- Return value of PlaidClient.sync_transactions
(app/integrations/plaid_client.py): the added / modified / removed lists of
one provider page plus has_more and next_cursor.  The removed entries are
identified by their transaction_id, which is the only field the service
reads from them. -/
structure SyncResult where
  added : List TxnPayload
  modified : List TxnPayload
  removed : List String
  has_more : Bool
  next_cursor : Option String
  deriving Repr

/-- Three processing loops of PlaidService.sync_account_transactions: all
added payloads through _save_transaction, then all modified payloads
through _update_transaction, then all removed ids through
_remove_transaction. -/
def applyDelta (account : BankAccount) (r : SyncResult) (s : TxnStore) : TxnStore :=
  let s1 := r.added.foldl (fun s p => saveTransaction account p s) s
  let s2 := r.modified.foldl (fun s p => updateTransaction p s) s1
  r.removed.foldl (fun s tid => removeTransaction tid s) s2

/-!
Pointwise analysis of the reconciliation: the value a delta leaves at one
external id depends only on the payloads carrying that id, processed in
order.  savePoint / updatePoint give the effect of one _save_transaction /
_update_transaction call on the row at its own id; savesAt / updatesAt /
removesAt replay a whole list of calls at a fixed id.
-/

/-- Effect of _save_transaction on the row at the payload's own id. -/
def savePoint (account : BankAccount) (p : TxnPayload) :
    Option TxnRecord → Option TxnRecord
  | none => some (newTxnRecord account p)
  | some t => some (updateTransactionFields p t)

/-- Effect of _update_transaction on the row at the payload's own id. -/
def updatePoint (p : TxnPayload) : Option TxnRecord → Option TxnRecord
  | none => none
  | some t => some (updateTransactionFields p t)

/-- Replay of a list of _save_transaction calls at the fixed id t. -/
def savesAt (account : BankAccount) (t : String) :
    List TxnPayload → Option TxnRecord → Option TxnRecord
  | [], c => c
  | p :: L, c =>
      savesAt account t L (if t = p.transaction_id then savePoint account p c else c)

/-- Replay of a list of _update_transaction calls at the fixed id t. -/
def updatesAt (t : String) :
    List TxnPayload → Option TxnRecord → Option TxnRecord
  | [], c => c
  | p :: L, c =>
      updatesAt t L (if t = p.transaction_id then updatePoint p c else c)

/-- Replay of a list of _remove_transaction calls at the fixed id t. -/
def removesAt (t : String) : List String → Option TxnRecord → Option TxnRecord
  | [], c => c
  | r :: L, c => removesAt t L (if t = r then none else c)

theorem updateTransaction_apply (p : TxnPayload) (s : TxnStore) (t : String) :
    updateTransaction p s t =
      if t = p.transaction_id then updatePoint p (s t) else s t := by
  by_cases ht : t = p.transaction_id
  · subst ht
    cases hs : s p.transaction_id with
    | none => simp [updateTransaction, hs, updatePoint]
    | some r => simp [updateTransaction, hs, updatePoint]
  · cases hs : s p.transaction_id with
    | none => simp [updateTransaction, hs, ht]
    | some r => simp [updateTransaction, hs, ht]

theorem saveTransaction_apply (a : BankAccount) (p : TxnPayload) (s : TxnStore)
    (t : String) :
    saveTransaction a p s t =
      if t = p.transaction_id then savePoint a p (s t) else s t := by
  by_cases ht : t = p.transaction_id
  · subst ht
    cases hs : s p.transaction_id with
    | none => simp [saveTransaction, hs, savePoint]
    | some r =>
        simp [saveTransaction, hs, updateTransaction_apply, updatePoint, savePoint]
  · cases hs : s p.transaction_id with
    | none => simp [saveTransaction, hs, ht]
    | some r => simp [saveTransaction, hs, ht, updateTransaction_apply]

theorem removeTransaction_apply (ptid : String) (s : TxnStore) (t : String) :
    removeTransaction ptid s t = if t = ptid then none else s t := by
  by_cases ht : t = ptid
  · subst ht
    cases hs : s t with
    | none => simp [removeTransaction, hs]
    | some r => simp [removeTransaction, hs]
  · cases hs : s ptid with
    | none => simp [removeTransaction, hs, ht]
    | some r => simp [removeTransaction, hs, ht]

theorem foldl_saveTransaction_apply (a : BankAccount) (L : List TxnPayload)
    (s : TxnStore) (t : String) :
    (L.foldl (fun s p => saveTransaction a p s) s) t = savesAt a t L (s t) := by
  induction L generalizing s with
  | nil => rfl
  | cons p L ih =>
      simp only [List.foldl_cons, savesAt]
      rw [ih, saveTransaction_apply]

theorem foldl_updateTransaction_apply (L : List TxnPayload) (s : TxnStore)
    (t : String) :
    (L.foldl (fun s p => updateTransaction p s) s) t = updatesAt t L (s t) := by
  induction L generalizing s with
  | nil => rfl
  | cons p L ih =>
      simp only [List.foldl_cons, updatesAt]
      rw [ih, updateTransaction_apply]

theorem foldl_removeTransaction_apply (L : List String) (s : TxnStore)
    (t : String) :
    (L.foldl (fun s tid => removeTransaction tid s) s) t = removesAt t L (s t) := by
  induction L generalizing s with
  | nil => rfl
  | cons r L ih =>
      simp only [List.foldl_cons, removesAt]
      rw [ih, removeTransaction_apply]

theorem applyDelta_apply (a : BankAccount) (r : SyncResult) (s : TxnStore)
    (t : String) :
    applyDelta a r s t =
      removesAt t r.removed (updatesAt t r.modified (savesAt a t r.added (s t))) := by
  unfold applyDelta
  rw [foldl_removeTransaction_apply, foldl_updateTransaction_apply,
    foldl_saveTransaction_apply]

/-- Two successive updates from payloads of the same id: the second list of
field assignments overwrites the first. -/
theorem updateTransactionFields_absorb (p q : TxnPayload) (t : TxnRecord) :
    updateTransactionFields p (updateTransactionFields q t) =
      updateTransactionFields p t := rfl

/-- Updating a freshly inserted row with the payload it was built from
changes nothing. -/
theorem updateTransactionFields_newTxnRecord (a : BankAccount) (p : TxnPayload) :
    updateTransactionFields p (newTxnRecord a p) = newTxnRecord a p := rfl

/-- Last payload of the list that carries the id t, if any (the processing
loops run head first, so a later match overrides an earlier one). -/
def lastMatch (t : String) : List TxnPayload → Option TxnPayload
  | [] => none
  | p :: L =>
      if t = p.transaction_id then some ((lastMatch t L).getD p)
      else lastMatch t L

theorem lastMatch_cons_none {t : String} {p : TxnPayload} {L : List TxnPayload}
    (h : lastMatch t (p :: L) = none) :
    lastMatch t L = none ∧ ¬ t = p.transaction_id := by
  simp only [lastMatch] at h
  by_cases hp : t = p.transaction_id
  · rw [if_pos hp] at h
    cases h
  · rw [if_neg hp] at h
    exact ⟨h, hp⟩

theorem savesAt_of_lastMatch_none (a : BankAccount) {t : String}
    {L : List TxnPayload} (h : lastMatch t L = none) (c : Option TxnRecord) :
    savesAt a t L c = c := by
  induction L generalizing c with
  | nil => rfl
  | cons p L ih =>
      obtain ⟨hL, hp⟩ := lastMatch_cons_none h
      simp only [savesAt, if_neg hp]
      exact ih hL c

theorem updatesAt_of_lastMatch_none {t : String} {L : List TxnPayload}
    (h : lastMatch t L = none) (c : Option TxnRecord) :
    updatesAt t L c = c := by
  induction L generalizing c with
  | nil => rfl
  | cons p L ih =>
      obtain ⟨hL, hp⟩ := lastMatch_cons_none h
      simp only [updatesAt, if_neg hp]
      exact ih hL c

theorem updatesAt_none (t : String) (L : List TxnPayload) :
    updatesAt t L none = none := by
  induction L with
  | nil => rfl
  | cons p L ih =>
      simp only [updatesAt, updatePoint, ite_self]
      exact ih

theorem savesAt_of_lastMatch_some (a : BankAccount) {t : String}
    {L : List TxnPayload} {q : TxnPayload} (h : lastMatch t L = some q)
    (x : TxnRecord) :
    savesAt a t L (some x) = some (updateTransactionFields q x) := by
  induction L generalizing x with
  | nil => simp [lastMatch] at h
  | cons p L ih =>
      simp only [lastMatch] at h
      by_cases hp : t = p.transaction_id
      · rw [if_pos hp] at h
        have hgd : (lastMatch t L).getD p = q := Option.some.inj h
        simp only [savesAt, if_pos hp, savePoint]
        cases hq : lastMatch t L with
        | some q1 =>
            have hq1 : q1 = q := by rw [hq] at hgd; exact hgd
            subst hq1
            rw [ih hq, updateTransactionFields_absorb]
        | none =>
            have hpq : p = q := by rw [hq] at hgd; exact hgd
            rw [savesAt_of_lastMatch_none a hq, hpq]
      · rw [if_neg hp] at h
        simp only [savesAt, if_neg hp]
        exact ih h x

theorem updatesAt_of_lastMatch_some {t : String} {L : List TxnPayload}
    {q : TxnPayload} (h : lastMatch t L = some q) (x : TxnRecord) :
    updatesAt t L (some x) = some (updateTransactionFields q x) := by
  induction L generalizing x with
  | nil => simp [lastMatch] at h
  | cons p L ih =>
      simp only [lastMatch] at h
      by_cases hp : t = p.transaction_id
      · rw [if_pos hp] at h
        have hgd : (lastMatch t L).getD p = q := Option.some.inj h
        simp only [updatesAt, if_pos hp, updatePoint]
        cases hq : lastMatch t L with
        | some q1 =>
            have hq1 : q1 = q := by rw [hq] at hgd; exact hgd
            subst hq1
            rw [ih hq, updateTransactionFields_absorb]
        | none =>
            have hpq : p = q := by rw [hq] at hgd; exact hgd
            rw [updatesAt_of_lastMatch_none hq, hpq]
      · rw [if_neg hp] at h
        simp only [updatesAt, if_neg hp]
        exact ih h x

theorem savesAt_none_of_lastMatch_some (a : BankAccount) {t : String}
    {L : List TxnPayload} {q : TxnPayload} (h : lastMatch t L = some q) :
    ∃ r, savesAt a t L none = some r ∧ updateTransactionFields q r = r := by
  induction L with
  | nil => simp [lastMatch] at h
  | cons p L ih =>
      simp only [lastMatch] at h
      by_cases hp : t = p.transaction_id
      · rw [if_pos hp] at h
        have hgd : (lastMatch t L).getD p = q := Option.some.inj h
        simp only [savesAt, if_pos hp, savePoint]
        cases hq : lastMatch t L with
        | some q1 =>
            have hq1 : q1 = q := by rw [hq] at hgd; exact hgd
            rw [hq1] at hq
            refine ⟨updateTransactionFields q (newTxnRecord a p), ?_, ?_⟩
            · exact savesAt_of_lastMatch_some a hq (newTxnRecord a p)
            · exact updateTransactionFields_absorb q q (newTxnRecord a p)
        | none =>
            have hpq : p = q := by rw [hq] at hgd; exact hgd
            refine ⟨newTxnRecord a p, savesAt_of_lastMatch_none a hq _, ?_⟩
            rw [← hpq]
            exact updateTransactionFields_newTxnRecord a p
      · rw [if_neg hp] at h
        simp only [savesAt, if_neg hp]
        exact ih h

theorem removesAt_none (t : String) (L : List String) :
    removesAt t L none = none := by
  induction L with
  | nil => rfl
  | cons r L ih =>
      simp only [removesAt, ite_self]
      exact ih

theorem removesAt_of_mem {t : String} {L : List String} (h : t ∈ L)
    (c : Option TxnRecord) : removesAt t L c = none := by
  induction L with
  | nil => cases h
  | cons r L ih =>
      by_cases hr : t = r
      · simp only [removesAt, if_pos hr]
        exact removesAt_none t L
      · have : t ∈ L := by
          cases h with
          | head => exact absurd rfl hr
          | tail _ h => exact h
        simp only [removesAt, if_neg hr]
        exact ih this

theorem removesAt_of_not_mem {t : String} {L : List String} (h : ¬ t ∈ L)
    (c : Option TxnRecord) : removesAt t L c = c := by
  induction L generalizing c with
  | nil => rfl
  | cons r L ih =>
      have hr : ¬ t = r := fun ht => h (ht ▸ List.mem_cons_self r L)
      have hL : ¬ t ∈ L := fun ht => h (List.mem_cons_of_mem r ht)
      simp only [removesAt, if_neg hr]
      exact ih hL c

/-- Replaying the per-id operations of one delta a second time changes
nothing. -/
theorem pointApply_idem (a : BankAccount) (t : String) (A M : List TxnPayload)
    (R : List String) (c : Option TxnRecord) :
    removesAt t R (updatesAt t M (savesAt a t A
        (removesAt t R (updatesAt t M (savesAt a t A c)))))
      = removesAt t R (updatesAt t M (savesAt a t A c)) := by
  by_cases hR : t ∈ R
  · rw [removesAt_of_mem hR, removesAt_of_mem hR]
  · simp only [removesAt_of_not_mem hR]
    cases hA : lastMatch t A with
    | none =>
        simp only [savesAt_of_lastMatch_none a hA]
        cases hM : lastMatch t M with
        | none => simp only [updatesAt_of_lastMatch_none hM]
        | some m =>
            cases c with
            | none => simp only [updatesAt_none]
            | some x =>
                rw [updatesAt_of_lastMatch_some hM x,
                  updatesAt_of_lastMatch_some hM,
                  updateTransactionFields_absorb]
    | some q =>
        have hy : ∃ y, savesAt a t A c = some y ∧
            updateTransactionFields q y = y := by
          cases c with
          | none => exact savesAt_none_of_lastMatch_some a hA
          | some x =>
              exact ⟨updateTransactionFields q x,
                savesAt_of_lastMatch_some a hA x,
                updateTransactionFields_absorb q q x⟩
        obtain ⟨y, hy1, hy2⟩ := hy
        rw [hy1]
        cases hM : lastMatch t M with
        | none =>
            simp only [updatesAt_of_lastMatch_none hM]
            rw [savesAt_of_lastMatch_some a hA y, hy2]
        | some m =>
            rw [updatesAt_of_lastMatch_some hM y,
              savesAt_of_lastMatch_some a hA,
              updateTransactionFields_absorb, hy2,
              updatesAt_of_lastMatch_some hM y]

/-- C2: applying one and the same sync delta twice in a row (added as upsert
keyed by the external transaction id, modified as update-in-place skipped
when unmatched, removed as delete that is a no-op when unmatched) leaves the
same transaction store as applying it once. -/
theorem applyDelta_idempotent (a : BankAccount) (r : SyncResult) (s : TxnStore) :
    applyDelta a r (applyDelta a r s) = applyDelta a r s := by
  funext t
  rw [applyDelta_apply, applyDelta_apply]
  exact pointApply_idem a t r.added r.modified r.removed (s t)

/-!
Sync orchestration (PlaidService.sync_account_transactions) and the Celery
task wrapper (app/tasks/plaid_tasks.py).  The Plaid client and the vault
decryption performed by the EncryptedString column type when the account
row is loaded are collaborators, passed in as functions: provider models
PlaidClient.sync_transactions (access token and cursor to one page), dec
models EncryptionService.decrypt on the stored token ciphertext (none when
decryption raises because the ciphertext is corrupted or the key wrong).
-/

/-- State of the two tables the sync code touches. -/
structure Db where
  accounts : String → Option BankAccount
  txns : TxnStore

/-- Count dict returned by PlaidService.sync_account_transactions. -/
structure SyncCounts where
  added : Nat
  modified : Nat
  removed : Nat
  deriving DecidableEq, Repr

/-- Exceptions PlaidService.sync_account_transactions can raise before the
commit: ValueError for an unknown account id, and the ValueError that
EncryptionService.decrypt raises on an invalid token when the loaded row's
plaid_access_token column is decrypted. -/
inductive SyncError where
  | notFound (account_id : String)
  | decryptFailed
  deriving DecidableEq, Repr

/-- PlaidService.sync_account_transactions: load the account row (which
decrypts the stored access token), call PlaidClient.sync_transactions once
with the persisted cursor, run the three reconciliation loops, then set
plaid_cursor to the returned next_cursor, stamp last_synced_at, clear
sync_error and commit.  The has_more flag of the returned page is never
consulted. -/
def syncAccountTransactions (dec : String → Option String)
    (provider : String → Option String → SyncResult)
    (db : Db) (account_id : String) (now : Int) :
    Except SyncError (Db × SyncCounts) :=
  match db.accounts account_id with
  | none => .error (.notFound account_id)
  | some account =>
    match dec account.plaid_access_token with
    | none => .error .decryptFailed
    | some access_token =>
      let cursor := account.plaid_cursor
      let sync_result := provider access_token cursor
      let txns := applyDelta account sync_result db.txns
      let account1 := { account with
        plaid_cursor := sync_result.next_cursor
        last_synced_at := some now
        sync_error := none }
      .ok (⟨fun i => if i = account_id then some account1 else db.accounts i, txns⟩,
        ⟨sync_result.added.length, sync_result.modified.length,
          sync_result.removed.length⟩)

/-- Celery sets max_retries = 3 on app.tasks.plaid_tasks.sync_account_transactions. -/
def maxRetries : Nat := 3

/-- Constant countdown passed to self.retry (300 seconds). -/
def retryCountdown : Nat := 300

/-- Observable outcome of one attempt of the Celery task. -/
inductive TaskOutcome where
  | success (counts : SyncCounts)
  | retry (exc : SyncError) (countdown : Nat)
  | failure (exc : SyncError)
  deriving DecidableEq, Repr

/-- One attempt of the Celery task app.tasks.plaid_tasks.sync_account_transactions:
on success return the counts; on any exception whatsoever, db.rollback()
(so the persisted state is the caller's unchanged db) and
raise self.retry(exc=e, countdown=300), which schedules another attempt
while self.request.retries < max_retries and re-raises the exception once
the retries are exhausted.  retries is the number of retries already
performed. -/
def syncAccountTransactionsTask (dec : String → Option String)
    (provider : String → Option String → SyncResult)
    (db : Db) (account_id : String) (now : Int) (retries : Nat) :
    Db × TaskOutcome :=
  match syncAccountTransactions dec provider db account_id now with
  | .ok (db1, counts) => (db1, .success counts)
  | .error e =>
      (db, if retries < maxRetries then .retry e retryCountdown else .failure e)

/-- Modelled from the spec (spec.md section 4.4, step 3), for comparison
with syncAccountTransactions: the orchestrator loop that repeatedly calls
the aggregator's sync operation, applies the reconciler to each returned
page, persists next_cursor after each reconciled page and continues while
has_more is true, stopping only when has_more is false.  fuel bounds the
number of pages so the definition is total; the counterexample uses a
provider that is exhausted within the fuel. -/
def specSyncLoop (provider : String → Option String → SyncResult)
    (access_token : String) :
    Nat → BankAccount → TxnStore → BankAccount × TxnStore
  | 0, account, s => (account, s)
  | fuel + 1, account, s =>
      let page := provider access_token account.plaid_cursor
      let s1 := applyDelta account page s
      let account1 := { account with plaid_cursor := page.next_cursor }
      if page.has_more then specSyncLoop provider access_token fuel account1 s1
      else (account1, s1)

/-!
Webhook verification (app/core/webhook_verification.py).  The JWT decode
performed by jose and the SHA-256 / HMAC digests of hashlib are
collaborators: the decoded claim set (or the JWTError outcome) and the
digest functions are passed in.  Request bodies are byte lists.
-/

/-- Claims PlaidWebhookVerifier.verify_plaid_webhook reads from the decoded
(unverified) JWT: unverified.get("request_body_sha256") and
unverified.get("iat"). -/
structure PlaidClaims where
  request_body_sha256 : Option String
  iat : Option Int
  deriving DecidableEq, Repr

/-- Distinct outcomes of PlaidWebhookVerifier.verify_plaid_webhook, one per
raise site: the missing-header 401, the JWTError 401, and the three
WebhookVerificationError raises (missing claim, body hash mismatch, stale
webhook), all of which are converted to a 401 response. -/
inductive PlaidVerifyResult where
  | ok
  | missingSignature
  | invalidToken
  | missingBodyHashClaim
  | bodyMismatch
  | stale (age : Int)
  deriving DecidableEq, Repr

/-- PlaidWebhookVerifier.MAX_WEBHOOK_AGE: maximum webhook age in seconds. -/
def MAX_WEBHOOK_AGE : Int := 300

/-- PlaidWebhookVerifier.verify_plaid_webhook.  sha256Hex models
hashlib.sha256(body).hexdigest(); signature is the Plaid-Verification
header, none when absent, and its payload is the jose decode outcome
(.error for a JWTError, .ok claims otherwise); now is int(time.time()).
The freshness check runs under Python truthiness (`if issued_at:`), so it
is skipped both when the iat claim is absent and when it equals 0. -/
def verifyPlaidWebhook (sha256Hex : List Nat → String)
    (signature : Option (Except Unit PlaidClaims))
    (body : List Nat) (now : Int) : PlaidVerifyResult :=
  match signature with
  | none => .missingSignature
  | some (.error _) => .invalidToken
  | some (.ok unverified) =>
    match unverified.request_body_sha256 with
    | none => .missingBodyHashClaim
    | some expected_hash =>
      if sha256Hex body ≠ expected_hash then .bodyMismatch
      else
        match unverified.iat with
        | none => .ok
        | some issued_at =>
            if issued_at ≠ 0 then
              let age := now - issued_at
              if age > MAX_WEBHOOK_AGE then .stale age else .ok
            else .ok

/-- Observable outcomes of GenericWebhookVerifier.verify_hmac_signature:
a returned boolean, the WebhookVerificationError raised by the blanket
except handler, or an escaping ValueError.  No code path produces the
configError outcome: the ValueError raised for an unsupported algorithm is
caught by `except Exception` and re-raised as WebhookVerificationError. -/
inductive HmacOutcome where
  | result (ok : Bool)
  | verificationError (msg : String)
  | configError (msg : String)
  deriving DecidableEq, Repr

/-- hmac.compare_digest on two hexdigest strings: a timing-safe comparison
whose value is plain string equality. -/
def hmacCompareDigest (x y : String) : Bool := x = y

/-- GenericWebhookVerifier.verify_hmac_signature.  hmacSha256Hex and
hmacSha512Hex model hmac.new(secret.encode(), body, h).hexdigest() for the
two supported hash constructions.  For any other algorithm name the code
raises ValueError, which the surrounding try/except converts into
WebhookVerificationError with the wrapped message. -/
def verifyHmacSignature (hmacSha256Hex hmacSha512Hex : String → List Nat → String)
    (body : List Nat) (signature secret algorithm : String) : HmacOutcome :=
  if algorithm = "sha256" then
    .result (hmacCompareDigest signature (hmacSha256Hex secret body))
  else if algorithm = "sha512" then
    .result (hmacCompareDigest signature (hmacSha512Hex secret body))
  else
    .verificationError ("Failed to verify signature: Unsupported algorithm: " ++ algorithm)

/-!
Encryption service (app/core/encryption.py).  The Fernet key material is
validated by EncryptionService._get_fernet, lazily on first use: the class
attribute _fernet starts as None and main.py's startup_event only logs, so
nothing validates the key at process startup.  Key bytes are modelled for
ASCII keys (one byte per character); the Fernet constructor's validation is
base64.urlsafe_b64decode followed by a 32-byte length check, with the
lenient character handling of Python's b64decode (non-alphabet characters
are discarded, the remainder must be well padded groups of four).
-/

/-- Value of one standard base64 alphabet character, none otherwise. -/
def b64Val (c : Nat) : Option Nat :=
  if 65 ≤ c ∧ c ≤ 90 then some (c - 65)
  else if 97 ≤ c ∧ c ≤ 122 then some (c - 97 + 26)
  else if 48 ≤ c ∧ c ≤ 57 then some (c - 48 + 52)
  else if c = 43 then some 62
  else if c = 47 then some 63
  else none

/-- Decode base64 groups of four characters, with padding only in the last
group; anything else is a binascii error. -/
def b64DecodeGroups : List Nat → Option (List Nat)
  | [] => some []
  | a :: b :: c :: d :: rest =>
    match b64Val a, b64Val b with
    | some va, some vb =>
      if c = 61 then
        if d = 61 ∧ rest = [] then some [va * 4 + vb / 16] else none
      else
        match b64Val c with
        | some vc =>
          if d = 61 then
            if rest = [] then some [va * 4 + vb / 16, vb % 16 * 16 + vc / 4]
            else none
          else
            match b64Val d with
            | some vd =>
              match b64DecodeGroups rest with
              | some bs =>
                  some ((va * 4 + vb / 16) :: (vb % 16 * 16 + vc / 4) ::
                    (vc % 4 * 64 + vd) :: bs)
              | none => none
            | none => none
        | none => none
    | _, _ => none
  | _ => none

/-- base64.urlsafe_b64decode as called by the Fernet constructor: translate
the urlsafe alphabet to the standard one, discard non-alphabet characters
(Python b64decode without validate), then decode. -/
def urlsafeB64Decode (bs : List Nat) : Option (List Nat) :=
  let translated := bs.map (fun c => if c = 45 then 43 else if c = 95 then 47 else c)
  let kept := translated.filter (fun c => (b64Val c).isSome || c = 61)
  b64DecodeGroups kept

/-- Bytes of an ASCII key string. -/
def strBytes (s : String) : List Nat := s.toList.map (fun c => c.toNat)

/-- ValueError message raised by EncryptionService._get_fernet when the
Fernet constructor rejects the key (the key-generation hint that follows in
the source message is elided). -/
def invalidKeyMessage : String :=
  "Invalid encryption key. Must be 32 url-safe base64-encoded bytes."

/-- ValueError message raised by EncryptionService.decrypt on InvalidToken. -/
def decryptFailedMessage : String :=
  "Failed to decrypt data. Token may be corrupted or encryption key changed."

namespace EncryptionService

/-- Key-material validation performed inside _get_fernet and the Fernet
constructor: a 32-character key is treated as raw key bytes and encoded
(which always succeeds); any other key is assumed to be already
base64-encoded and must urlsafe-b64decode to exactly 32 bytes.  The result
is the 32-byte Fernet key, none when the constructor raises. -/
def fernetOfKey (encryption_key : String) : Option (List Nat) :=
  if encryption_key.length = 32 then some (strBytes encryption_key)
  else
    match urlsafeB64Decode (strBytes encryption_key) with
    | some bs => if bs.length = 32 then some bs else none
    | none => none

/-- Class attribute `_fernet: Optional[Fernet] = None` as it stands when the
process has started: the FastAPI startup_event in main.py only writes log
lines and never touches EncryptionService, so startup always completes with
the cache still empty whatever the configured key is. -/
def fernetCacheAtStartup : Option (List Nat) := none

/-- EncryptionService._get_fernet: return the cached instance, or on first
use validate settings.ENCRYPTION_KEY, cache and return the instance;
ValueError with invalidKeyMessage when the key is rejected. -/
def getFernet (encryption_key : String) (cache : Option (List Nat)) :
    Except String (List Nat × Option (List Nat)) :=
  match cache with
  | some f => .ok (f, some f)
  | none =>
    match fernetOfKey encryption_key with
    | some f => .ok (f, some f)
    | none => .error invalidKeyMessage

/-- EncryptionService.encrypt: empty input passes through untouched;
otherwise obtain the Fernet instance (validating the key on first use) and
encrypt.  fernetEncrypt models the cryptography library call. -/
def encrypt (fernetEncrypt : List Nat → String → String)
    (encryption_key : String) (cache : Option (List Nat)) (plaintext : String) :
    Except String (String × Option (List Nat)) :=
  if plaintext = "" then .ok (plaintext, cache)
  else
    match getFernet encryption_key cache with
    | .error e => .error e
    | .ok (f, cache1) => .ok (fernetEncrypt f plaintext, cache1)

/-- EncryptionService.decrypt: empty input passes through untouched;
otherwise obtain the Fernet instance (validating the key on first use) and
decrypt; an InvalidToken from the library (fernetDecrypt returning none)
becomes ValueError with decryptFailedMessage. -/
def decrypt (fernetDecrypt : List Nat → String → Option String)
    (encryption_key : String) (cache : Option (List Nat)) (ciphertext : String) :
    Except String (String × Option (List Nat)) :=
  if ciphertext = "" then .ok (ciphertext, cache)
  else
    match getFernet encryption_key cache with
    | .error e => .error e
    | .ok (f, cache1) =>
      match fernetDecrypt f ciphertext with
      | some plaintext => .ok (plaintext, cache1)
      | none => .error decryptFailedMessage

end EncryptionService

/-!
Auxiliary lemmas and concrete fixtures used by the claim theorems and
their witnesses.
-/

/-- Projection of a sync run outcome to the parts that do not merely copy
the is_active flag through: the persisted cursor of the account, the whole
transaction store and the returned counts. -/
def runView (account_id : String) (r : Except SyncError (Db × SyncCounts)) :
    Except SyncError (Option (Option String) × TxnStore × SyncCounts) :=
  r.map (fun x => ((x.1.accounts account_id).map BankAccount.plaid_cursor, x.1.txns, x.2))

/-- Overwrite the is_active flag of one account row. -/
def dbSetActive (db : Db) (account_id : String) (b : Bool) : Db :=
  ⟨fun i =>
      if i = account_id then (db.accounts i).map (fun a => { a with is_active := b })
      else db.accounts i,
    db.txns⟩

theorem newTxnRecord_is_active (a : BankAccount) (b : Bool) :
    newTxnRecord { a with is_active := b } = newTxnRecord a := rfl

theorem saveTransaction_is_active (a : BankAccount) (b : Bool) (p : TxnPayload)
    (s : TxnStore) :
    saveTransaction { a with is_active := b } p s = saveTransaction a p s := by
  simp only [saveTransaction, newTxnRecord_is_active]

theorem applyDelta_is_active (a : BankAccount) (b : Bool) (r : SyncResult)
    (s : TxnStore) :
    applyDelta { a with is_active := b } r s = applyDelta a r s := by
  simp only [applyDelta, saveTransaction_is_active]

/-- Minimal provider payload fixture. -/
def exPayload (tid : String) (amt : Int) : TxnPayload :=
  ⟨tid, amt, "2024-01-02", none, "coffee", none, [], none, none, false⟩

/-- Linked account fixture (active, never synced). -/
def exAccount : BankAccount := ⟨"a1", "h1", "cipher", none, true, none, none⟩

/-- First provider page: one added transaction, has_more = true. -/
def page1 : SyncResult := ⟨[exPayload "T1" 10], [], [], true, some "c1"⟩

/-- Second provider page: one added transaction, has_more = false. -/
def page2 : SyncResult := ⟨[exPayload "T2" 20], [], [], false, some "c2"⟩

/-- Two-page provider fixture: the initial cursor yields page1, the cursor
persisted after page1 yields page2. -/
def exProvider : String → Option String → SyncResult :=
  fun _ cursor => if cursor = some "c1" then page2 else page1

/-- Vault fixture: every ciphertext decrypts to the token "tok". -/
def exDec : String → Option String := fun _ => some "tok"

/-- Database fixture holding the single account a1 and no transactions. -/
def exDb : Db := ⟨fun i => if i = "a1" then some exAccount else none, fun _ => none⟩

/-- Database fixture holding a1 marked inactive, and no transactions. -/
def exDbInactive : Db :=
  ⟨fun i => if i = "a1" then some { exAccount with is_active := false } else none,
    fun _ => none⟩

/-- Database fixture with no accounts at all. -/
def emptyDb : Db := ⟨fun _ => none, fun _ => none⟩

/-!
Claim theorems.
-/

/-- C1 counterexample: the sync run does not page through the aggregator.
With a provider whose first page has has_more = true, the code persists the
first page's cursor c1 and never stores the second page's transaction T2,
while the loop the spec describes (run with ample fuel) reaches cursor c2
and stores T2. -/
theorem sync_stops_after_first_page_cx :
    page1.has_more = true
    ∧ ((syncAccountTransactions exDec exProvider exDb "a1" 0).toOption.map
        (fun r => ((r.1.accounts "a1").bind BankAccount.plaid_cursor,
          (r.1.txns "T2").isSome))
      = some (some "c1", false))
    ∧ (specSyncLoop exProvider "tok" 2 exAccount exDb.txns).1.plaid_cursor = some "c2"
    ∧ ((specSyncLoop exProvider "tok" 2 exAccount exDb.txns).2 "T2").isSome = true := by
  decide

/-- C1 amended: each sync run makes exactly one call to the aggregator's
sync operation, reconciles that single page and persists that page's
next_cursor; the has_more flag is ignored entirely (forcing it true on
every page changes nothing), so later pages are left to future runs. -/
theorem sync_single_page_only (dec : String → Option String)
    (provider : String → Option String → SyncResult)
    (db : Db) (account_id : String) (now : Int) :
    (syncAccountTransactions dec
        (fun tok cursor => { provider tok cursor with has_more := true })
        db account_id now
      = syncAccountTransactions dec provider db account_id now)
    ∧ (∀ account access_token, db.accounts account_id = some account →
        dec account.plaid_access_token = some access_token →
        (syncAccountTransactions dec provider db account_id now).toOption.map
            (fun r => (r.1.accounts account_id).bind BankAccount.plaid_cursor)
          = some (provider access_token account.plaid_cursor).next_cursor) := by
  constructor
  · unfold syncAccountTransactions
    cases h1 : db.accounts account_id with
    | none => rfl
    | some account =>
        cases h2 : dec account.plaid_access_token with
        | none => rfl
        | some tok => rfl
  · intro account access_token h1 h2
    simp [syncAccountTransactions, h1, h2, Except.toOption]

theorem sync_single_page_only_witness :
    (syncAccountTransactions exDec exProvider exDb "a1" 0).toOption.map
        (fun r => (r.1.accounts "a1").bind BankAccount.plaid_cursor)
      = some (exProvider "tok" exAccount.plaid_cursor).next_cursor :=
  (sync_single_page_only exDec exProvider exDb "a1" 0).2 exAccount "tok"
    (by decide) rfl

/-- C3: when decrypting the stored access token fails (the vault raises on
a corrupted ciphertext or wrong key while the loaded row's token column is
decrypted), the sync run aborts with that error before reaching the
provider, and the task-level rollback leaves the persisted state, cursor
included, exactly as it was. -/
theorem sync_decrypt_failure_aborts (dec : String → Option String)
    (provider : String → Option String → SyncResult)
    (db : Db) (account_id : String) (now : Int) (retries : Nat)
    (account : BankAccount)
    (h1 : db.accounts account_id = some account)
    (h2 : dec account.plaid_access_token = none) :
    syncAccountTransactions dec provider db account_id now = .error .decryptFailed
    ∧ (syncAccountTransactionsTask dec provider db account_id now retries).1 = db := by
  have h : syncAccountTransactions dec provider db account_id now
      = .error .decryptFailed := by
    simp [syncAccountTransactions, h1, h2]
  exact ⟨h, by simp [syncAccountTransactionsTask, h]⟩

theorem sync_decrypt_failure_aborts_witness :
    syncAccountTransactions (fun _ => none) exProvider exDb "a1" 0
        = .error .decryptFailed
    ∧ (syncAccountTransactionsTask (fun _ => none) exProvider exDb "a1" 0 0).1
        = exDb :=
  sync_decrypt_failure_aborts (fun _ => none) exProvider exDb "a1" 0 0 exAccount
    (by decide) rfl

/-- C4 counterexample: a bad (unknown) account id is a data failure the
claim says is never retried, yet the task schedules a retry for it with the
constant 300-second countdown. -/
theorem task_retries_bad_account_id_cx :
    syncAccountTransactions exDec exProvider emptyDb "ghost" 0
        = .error (.notFound "ghost")
    ∧ syncAccountTransactionsTask exDec exProvider emptyDb "ghost" 0 0
        = (emptyDb, .retry (.notFound "ghost") 300) :=
  ⟨rfl, rfl⟩

/-- C4 amended: the task retries every failure whatsoever, transient or
not, bad account id included, with a constant 300-second countdown (no
exponential backoff), until the Celery retry ceiling of 3 is reached, after
which the failure is final. -/
theorem task_retries_every_failure (dec : String → Option String)
    (provider : String → Option String → SyncResult)
    (db : Db) (account_id : String) (now : Int) (retries : Nat) (e : SyncError)
    (h : syncAccountTransactions dec provider db account_id now = .error e) :
    syncAccountTransactionsTask dec provider db account_id now retries
      = (db, if retries < maxRetries then .retry e retryCountdown else .failure e) := by
  simp [syncAccountTransactionsTask, h]

theorem task_retries_every_failure_witness :
    syncAccountTransactionsTask exDec exProvider emptyDb "ghost" 0 5
      = (emptyDb,
          if 5 < maxRetries then .retry (.notFound "ghost") retryCountdown
          else .failure (.notFound "ghost")) :=
  task_retries_every_failure exDec exProvider emptyDb "ghost" 0 5
    (.notFound "ghost") rfl

/-- C5 counterexample: a provider payload carrying the signed amount -5 is
stored with amount 5 on both the insert and the update path, so the stored
amount differs from the provider's original signed amount. -/
theorem stored_amount_discards_sign_cx :
    (exPayload "T3" (-5)).amount = -5
    ∧ (newTxnRecord exAccount (exPayload "T3" (-5))).amount = 5
    ∧ (updateTransactionFields (exPayload "T3" (-5))
        (newTxnRecord exAccount (exPayload "T3" 7))).amount = 5
    ∧ ((5 : Int) ≠ -5) := by
  decide

/-- C5 amended: the stored amount is the absolute value of the provider's
signed amount on both the insert and the update path (the source comments
that Plaid uses negative amounts for expenses and discards the sign). -/
theorem stored_amount_is_absolute_value (a : BankAccount) (p : TxnPayload)
    (t : TxnRecord) :
    (newTxnRecord a p).amount = |p.amount|
    ∧ (updateTransactionFields p t).amount = |p.amount| :=
  ⟨rfl, rfl⟩

/-- C6 counterexample: a token whose issued_at is 0 is older than 300
seconds relative to now = 1000, its body hash matches, and yet verification
succeeds: the Python truthiness guard `if issued_at:` skips the freshness
check for the zero timestamp. -/
theorem stale_zero_iat_accepted_cx :
    ((1000 : Int) - 0 > MAX_WEBHOOK_AGE)
    ∧ verifyPlaidWebhook (fun _ => "h") (some (.ok ⟨some "h", some 0⟩)) [] 1000
        = .ok := by
  decide

/-- C6 amended: for every webhook whose token carries a nonzero issued_at
older than 300 seconds relative to now, verification fails with the stale
outcome even when the claimed body hash matches the computed one. -/
theorem verify_stale_nonzero_iat (sha256Hex : List Nat → String)
    (claims : PlaidClaims) (body : List Nat) (now issued_at : Int)
    (hhash : claims.request_body_sha256 = some (sha256Hex body))
    (hiat : claims.iat = some issued_at) (hnz : issued_at ≠ 0)
    (hold : now - issued_at > MAX_WEBHOOK_AGE) :
    verifyPlaidWebhook sha256Hex (some (.ok claims)) body now
      = .stale (now - issued_at) := by
  simp only [verifyPlaidWebhook, hhash, hiat, ne_eq, not_true_eq_false]
  rw [if_neg (by simp), if_pos hnz, if_pos hold]

theorem verify_stale_nonzero_iat_witness :
    verifyPlaidWebhook (fun _ => "h") (some (.ok ⟨some "h", some 1⟩)) [] 1000
      = .stale (1000 - 1) :=
  verify_stale_nonzero_iat (fun _ => "h") ⟨some "h", some 1⟩ [] 1000 1
    rfl rfl (by decide) (by decide)

/-- C7 counterexample: account a1 exists and is marked inactive, yet its
sync run succeeds rather than failing with an Inactive error: the
aggregator page is consumed (one transaction added) and the persisted
cursor advances to c1. -/
theorem inactive_account_synced_cx :
    ((exDbInactive.accounts "a1").map BankAccount.is_active = some false)
    ∧ ((syncAccountTransactions exDec exProvider exDbInactive "a1" 0).toOption.map
        (fun r => ((r.1.accounts "a1").bind BankAccount.plaid_cursor, r.2.added))
      = some (some "c1", 1)) := by
  decide

/-- C7 amended: the sync run checks only that the account row exists and
never consults is_active: flipping the flag changes nothing observable in
the run's outcome (error, counts, transaction store and persisted cursor
are identical); inactive accounts are only filtered out where runs are
enqueued (sync_all_accounts and the webhook handler). -/
theorem sync_ignores_is_active (dec : String → Option String)
    (provider : String → Option String → SyncResult)
    (db : Db) (account_id : String) (now : Int) :
    runView account_id (syncAccountTransactions dec provider
        (dbSetActive db account_id false) account_id now)
      = runView account_id (syncAccountTransactions dec provider
        (dbSetActive db account_id true) account_id now) := by
  cases h : db.accounts account_id with
  | none => simp [runView, dbSetActive, syncAccountTransactions, h]
  | some a =>
      cases h2 : dec a.plaid_access_token with
      | none => simp [runView, dbSetActive, syncAccountTransactions, h, h2]
      | some tok =>
          simp [runView, dbSetActive, syncAccountTransactions, h, h2,
            applyDelta_is_active, Except.map]

/-- C8 counterexample: called with the unsupported algorithm name md5, the
generic verifier neither surfaces the configuration ValueError (the blanket
except handler swallows it) nor returns a boolean: it raises
WebhookVerificationError, the exception type documented as a webhook
verification failure. -/
theorem unsupported_algorithm_cx :
    verifyHmacSignature (fun _ _ => "d1") (fun _ _ => "d2") [] "sig" "secret" "md5"
        = .verificationError "Failed to verify signature: Unsupported algorithm: md5"
    ∧ (HmacOutcome.verificationError
          "Failed to verify signature: Unsupported algorithm: md5"
        ≠ .configError "Unsupported algorithm: md5")
    ∧ (HmacOutcome.verificationError
          "Failed to verify signature: Unsupported algorithm: md5"
        ≠ .result false) := by
  decide

/-- C8 amended: for every algorithm name other than sha256 and sha512, the
generic verifier raises WebhookVerificationError wrapping the unsupported
algorithm message: the internal ValueError never escapes as a distinct
configuration error, though the verifier also never returns False for it. -/
theorem unsupported_algorithm_wrapped (h256 h512 : String → List Nat → String)
    (body : List Nat) (signature secret algorithm : String)
    (h1 : algorithm ≠ "sha256") (h2 : algorithm ≠ "sha512") :
    verifyHmacSignature h256 h512 body signature secret algorithm
      = .verificationError
          ("Failed to verify signature: Unsupported algorithm: " ++ algorithm) := by
  simp [verifyHmacSignature, h1, h2]

theorem unsupported_algorithm_wrapped_witness :
    verifyHmacSignature (fun _ _ => "d1") (fun _ _ => "d2") [] "sig" "secret" "md5"
      = .verificationError
          ("Failed to verify signature: Unsupported algorithm: " ++ "md5") :=
  unsupported_algorithm_wrapped (fun _ _ => "d1") (fun _ _ => "d2") [] "sig"
    "secret" "md5" (by decide) (by decide)

/-- C9 counterexample: with the invalid key "short" configured, process
startup completes with the vault cache still empty (nothing validates the
key at startup), and the invalid-key ValueError only surfaces on the first
encrypt call: validation is deferred to first use, not a fatal startup
error. -/
theorem lazy_key_validation_cx :
    EncryptionService.fernetOfKey "short" = none
    ∧ EncryptionService.fernetCacheAtStartup = none
    ∧ EncryptionService.encrypt (fun _ _ => "ct") "short"
        EncryptionService.fernetCacheAtStartup "tok"
      = .error invalidKeyMessage := by
  refine ⟨by decide, rfl, by rfl⟩

/-- C9 amended: the vault key is validated lazily: startup always leaves
the cached Fernet instance empty, and an invalid key raises the ValueError
on the first nonempty encrypt or decrypt call instead of at startup. -/
theorem key_validated_on_first_use
    (fernetEncrypt : List Nat → String → String)
    (fernetDecrypt : List Nat → String → Option String)
    (encryption_key plaintext ciphertext : String)
    (hkey : EncryptionService.fernetOfKey encryption_key = none)
    (hpt : plaintext ≠ "") (hct : ciphertext ≠ "") :
    EncryptionService.encrypt fernetEncrypt encryption_key
        EncryptionService.fernetCacheAtStartup plaintext = .error invalidKeyMessage
    ∧ EncryptionService.decrypt fernetDecrypt encryption_key
        EncryptionService.fernetCacheAtStartup ciphertext = .error invalidKeyMessage := by
  constructor
  · simp [EncryptionService.encrypt, EncryptionService.getFernet,
      EncryptionService.fernetCacheAtStartup, hkey, hpt]
  · simp [EncryptionService.decrypt, EncryptionService.getFernet,
      EncryptionService.fernetCacheAtStartup, hkey, hct]

theorem key_validated_on_first_use_witness :
    EncryptionService.encrypt (fun _ _ => "ct") "short"
        EncryptionService.fernetCacheAtStartup "tok" = .error invalidKeyMessage
    ∧ EncryptionService.decrypt (fun _ _ => none) "short"
        EncryptionService.fernetCacheAtStartup "ct" = .error invalidKeyMessage :=
  key_validated_on_first_use (fun _ _ => "ct") (fun _ _ => none) "short" "tok" "ct"
    (by decide) (by decide) (by decide)

/-- C10: a decodable token that carries no iat claim at all is not treated
as malformed: when the claimed body hash matches the computed SHA-256 of
the raw body, verification succeeds and the freshness check is skipped
entirely. -/
theorem verify_missing_iat_ok (sha256Hex : List Nat → String)
    (claims : PlaidClaims) (body : List Nat) (now : Int)
    (hiat : claims.iat = none)
    (hhash : claims.request_body_sha256 = some (sha256Hex body)) :
    verifyPlaidWebhook sha256Hex (some (.ok claims)) body now = .ok := by
  simp [verifyPlaidWebhook, hhash, hiat]

theorem verify_missing_iat_ok_witness :
    verifyPlaidWebhook (fun _ => "h") (some (.ok ⟨some "h", none⟩)) [] 1000 = .ok :=
  verify_missing_iat_ok (fun _ => "h") ⟨some "h", none⟩ [] 1000 rfl rfl

end Wumbo
